import Mathlib

/-!
Shallow embedding of the job-processing subsystem of `convertly` (src/main.go):
the job record, the job-status store, the bounded work queue, the worker body
`processJob`, the cleanup sweeper `cleanupOldJobs`, and the submission and
download handlers `handleConvert` / `handleDownload`.

Time is modelled in seconds (`time.Minute` becomes 60); file-system and
process effects (temp-file creation, `exec.LookPath`, the pandoc run) are
parameters of an `Env` record, and the effects a run performs (store writes,
channel sends, file removals) are returned explicitly.  A `none` result of a
store access models Go's nil-pointer dereference on a map miss.
-/

namespace Convertly

/-- Status of a job, from the `JobStatus` constants in src/main.go. -/
inductive JobStatus where
  | queued
  | processing
  | done
  | failed
deriving DecidableEq

/-- A stored job entry (`JobEntry` in src/main.go): status, output path,
error text and creation time (seconds). -/
structure JobEntry where
  status : JobStatus
  outputPath : String
  error : String
  createdAt : Nat
deriving DecidableEq

/-- A conversion job (`Job` in src/main.go); the one-shot result channel is
modelled by the list of sends a run performs, so it is not a field here. -/
structure Job where
  id : String
  inputPath : String
  fromFmt : String
  toFmt : String
  content : String
  isFile : Bool
deriving DecidableEq

/-- The value sent on a job's result channel (`Result` in src/main.go);
`err = none` models a nil error. -/
structure Result where
  outputPath : String
  err : Option String
deriving DecidableEq

/-- The job store's map contents (`jobStore.jobs`), as an association list
keyed by job identifier. -/
abbrev Store := List (String × JobEntry)

/-- Go map indexing `jobStore.jobs[id]`: the first binding of `id`, if any. -/
def lookupJob : Store → String → Option JobEntry
  | [], _ => none
  | (k, e) :: rest, id => if k = id then some e else lookupJob rest id

/-- Go map assignment `jobStore.jobs[id] = &entry`: bind `id`, replacing any
previous binding. -/
def insertJob (s : Store) (id : String) (e : JobEntry) : Store :=
  (id, e) :: s.filter (fun p => p.1 ≠ id)

/-- Rewrite the entry bound to `id` through `f`, leaving other keys alone. -/
def updateMap (s : Store) (id : String) (f : JobEntry → JobEntry) : Store :=
  s.map (fun p => if p.1 = id then (p.1, f p.2) else p)

/-- A field assignment through `jobStore.jobs[id]` in src/main.go: Go map
indexing yields a nil pointer when `id` is absent, and the assignment then
panics; that panic is modelled by `none`. -/
def updateEntry (s : Store) (id : String) (f : JobEntry → JobEntry) : Option Store :=
  match lookupJob s id with
  | none => none
  | some _ => some (updateMap s id f)

/-- `formatExtensions` from src/main.go: format identifier to file extension. -/
def formatExtensions : List (String × String) :=
  [("markdown", ".md"), ("html", ".html"), ("pdf", ".pdf"), ("docx", ".docx"),
   ("odt", ".odt"), ("rst", ".rst"), ("latex", ".tex"), ("plain", ".txt"),
   ("mediawiki", ".wiki"), ("epub", ".epub"), ("json", ".json"), ("org", ".org"),
   ("asciidoc", ".adoc"), ("csv", ".csv"), ("rtf", ".rtf"), ("textile", ".textile"),
   ("docbook", ".xml"), ("jira", ".txt"), ("ipynb", ".ipynb"), ("opml", ".opml"),
   ("fb2", ".fb2"), ("vimwiki", ".wiki"), ("twiki", ".txt"), ("tikiwiki", ".txt"),
   ("creole", ".txt"), ("gfm", ".md"), ("pptx", ".pptx")]

/-- Go map read `formatExtensions[f]`: the zero value `""` on a miss. -/
def formatExtension (f : String) : String :=
  (List.lookup f formatExtensions).getD ""

/-- `extensionFormats` from src/main.go: extension to format, for
auto-detection of an uploaded file's source format. -/
def extensionFormats : List (String × String) :=
  [(".md", "markdown"), (".markdown", "markdown"), (".html", "html"),
   (".htm", "html"), (".docx", "docx"), (".odt", "odt"), (".rst", "rst"),
   (".tex", "latex"), (".txt", "plain"), (".wiki", "mediawiki"),
   (".epub", "epub"), (".json", "json"), (".org", "org"), (".adoc", "asciidoc"),
   (".csv", "csv"), (".rtf", "rtf"), (".textile", "textile"),
   (".ipynb", "ipynb"), (".opml", "opml"), (".fb2", "fb2"), (".pptx", "pptx"),
   (".pdf", "pdf")]

/-- `supportedFormats` from src/main.go: the full catalog of format
identifiers.  It is declared in the source but never consulted by
`handleConvert`'s validation. -/
def supportedFormats : List String :=
  ["markdown", "html", "docx", "gfm", "pdf", "pptx",
   "rst", "latex", "odt", "plain", "epub", "mediawiki",
   "json", "org", "asciidoc", "csv", "rtf", "textile",
   "docbook", "jira", "ipynb", "opml", "fb2", "vimwiki",
   "twiki", "tikiwiki", "creole"]

/-- Helper for `filepathExt`: walk the reversed character list, accumulating
the suffix until the final dot (returning it) or a path separator or the
start of the string (returning `""`). -/
def extFromRev : List Char → List Char → String
  | [], _ => ""
  | c :: rest, acc =>
    if c = '.' then String.mk ('.' :: acc)
    else if c = '/' then ""
    else extFromRev rest (c :: acc)

/-- Go's `filepath.Ext`: the suffix beginning at the final dot in the final
path element, `""` if there is none. -/
def filepathExt (p : String) : String :=
  extFromRev p.data.reverse []

/-- Retention window for store entries: `30 * time.Minute` in seconds
(src/main.go, `cleanupOldJobs`). -/
def retention : Nat := 30 * 60

/-- Capacity of the bounded work queue: `make(chan Job, 256)` in src/main.go. -/
def queueCapacity : Nat := 256

/-- Capacity of each job's result channel: `make(chan Result, 1)` in
`handleConvert` (src/main.go line 746). -/
def resultChanCapacity : Nat := 1

/-- `now.Sub(entry.CreatedAt) > 30*time.Minute` from `cleanupOldJobs`. -/
def expired (now : Nat) (e : JobEntry) : Bool :=
  decide (retention < now - e.createdAt)

/-- `cleanupOldJobs` from src/main.go: drop every entry older than the
retention window, and return the list of output files removed from disk
(`os.Remove(entry.OutputPath)` for expired entries with a non-empty path;
removal errors are ignored, so the deletion list records the attempts). -/
def cleanupOldJobs (now : Nat) (jobs : Store) : Store × List String :=
  (jobs.filter (fun p => !(expired now p.2)),
   (jobs.filter (fun p => expired now p.2 && p.2.outputPath ≠ "")).map
     (fun p => p.2.outputPath))

/-- The outside world as `processJob` observes it: the outcome of
`os.CreateTemp` (the created file's name, or `none` on error), of
`tmpFile.WriteString`, the set of binaries `exec.LookPath` finds, the
outcome and diagnostics of the pandoc run, and `os.TempDir()`. -/
structure Env where
  tempCreate : Option String
  tempWrite : Bool
  available : List String
  pandocOk : Bool
  pandocErrMsg : String
  pandocStderr : String
  tempDir : String
deriving DecidableEq

/-- The PDF engine preference list from `processJob` (src/main.go line 680). -/
def pdfEngines : List String := ["xelatex", "pdflatex", "luatex"]

/-- The engine-probing loop of `processJob`: the first engine of `pdfEngines`
that `exec.LookPath` finds, `none` when none is installed. -/
def selectEngine (available : List String) : Option String :=
  pdfEngines.find? (fun e => available.contains e)

/-- The error message `processJob` produces when no PDF engine is installed
(src/main.go line 692). -/
def noPdfEngineError : String :=
  "PDF conversion requires a LaTeX engine (xelatex, pdflatex, or luatex) to be installed. Please install texlive-latex-recommended and lmodern packages"

/-- The error message of a failed pandoc run (src/main.go line 714). -/
def pandocFailMsg (env : Env) : String :=
  "pandoc failed: " ++ env.pandocErrMsg ++ ", stderr: " ++ env.pandocStderr

/-- The deterministic output path built by `processJob`:
`filepath.Join(os.TempDir(), "pandoc_output_"+job.ID+outExt)`. -/
def outputPathFor (env : Env) (job : Job) : String :=
  env.tempDir ++ "/pandoc_output_" ++ job.id ++ formatExtension job.toFmt

/-- Outcome of the input-materialization stage of `processJob`: the input
path together with the temp files created so far and the removals deferred
so far. -/
structure MatOut where
  inputPath : String
  created : List String
  deferredRemoves : List String
deriving DecidableEq

/-- The input-handling stage of `processJob` (src/main.go lines 639-662).
An uploaded file is used in place with its removal deferred; inline content
is written to a fresh temp file.  On error the stage returns the `Result`
sent on the job's channel, paired with the temp files created before the
failure; note the source registers `defer os.Remove(inputPath)` only after
the write succeeds, so the write-failure error carries a created file with
no deferred removal. -/
def materializeInput (job : Job) (env : Env) : Except (Result × List String) MatOut :=
  if job.isFile then
    .ok ⟨job.inputPath, [], [job.inputPath]⟩
  else
    match env.tempCreate with
    | none => .error (⟨"", some "failed to create temp file"⟩, [])
    | some p =>
      if env.tempWrite then .ok ⟨p, [p], [p]⟩
      else .error (⟨"", some "failed to write content"⟩, [p])

/-- Everything one `processJob` run does: the final store, the sends on the
job's result channel, the temp input files created, the `os.Remove` calls on
input files (in order), the statuses assigned to the job's store entry (in
order), and whether pandoc was executed. -/
structure ProcOut where
  store : Store
  sends : List Result
  created : List String
  removed : List String
  statusWrites : List JobStatus
  ranPandoc : Bool
deriving DecidableEq

/-- `processJob` from src/main.go (lines 628-733): mark the entry
Processing, materialize the input, probe for a PDF engine when the target is
pdf, run pandoc, and record the terminal status.  `none` models the nil-map
panic of an unguarded `jobStore.jobs[job.ID]` access on an absent entry. -/
def processJob (job : Job) (env : Env) (s0 : Store) : Option ProcOut :=
  match updateEntry s0 job.id (fun e => { e with status := .processing }) with
  | none => none
  | some s1 =>
    match materializeInput job env with
    | .error (r, created) =>
      some ⟨s1, [r], created, [], [.processing], false⟩
    | .ok m =>
      if job.toFmt = "pdf" && (selectEngine env.available).isNone then
        match updateEntry s1 job.id
            (fun e => { e with status := .failed, error := noPdfEngineError }) with
        | none => none
        | some s2 =>
          some ⟨s2, [⟨"", some noPdfEngineError⟩], m.created,
                m.inputPath :: m.deferredRemoves, [.processing, .failed], false⟩
      else if env.pandocOk then
        match updateEntry s1 job.id
            (fun e => { e with status := .done, outputPath := outputPathFor env job }) with
        | none => none
        | some s2 =>
          some ⟨s2, [⟨outputPathFor env job, none⟩], m.created,
                m.deferredRemoves, [.processing, .done], true⟩
      else
        match updateEntry s1 job.id
            (fun e => { e with status := .failed, error := pandocFailMsg env }) with
        | none => none
        | some s2 =>
          some ⟨s2, [⟨"", some (pandocFailMsg env)⟩], m.created,
                m.deferredRemoves, [.processing, .failed], true⟩

/-- A parsed conversion request reaching the job-building part of
`handleConvert`: a multipart upload (with the original filename, the temp
path the upload was saved to, and the `from`/`to` form values) or a JSON
body `{from, to, content}`. -/
inductive ConvertReq where
  | upload (filename savedPath fromFmt toFmt : String)
  | jsonBody (fromFmt toFmt content : String)

/-- The `from`-format auto-detection of `handleConvert` (src/main.go lines
783-790): look the extension up in `extensionFormats`, default `markdown`. -/
def detectFormat (ext : String) : String :=
  match List.lookup ext extensionFormats with
  | some f => f
  | none => "markdown"

/-- The job record `handleConvert` builds from a parsed request
(src/main.go lines 744-808). -/
def buildJob (id : String) (req : ConvertReq) : Job :=
  match req with
  | .upload filename savedPath fromFmt toFmt =>
    let f := if fromFmt = "" then detectFormat (filepathExt filename) else fromFmt
    ⟨id, savedPath, f, toFmt, "", true⟩
  | .jsonBody fromFmt toFmt content =>
    ⟨id, "", fromFmt, toFmt, content, false⟩

/-- The shared state `handleConvert` touches: the job store and the bounded
work queue (the buffered channel's pending contents, oldest first). -/
structure ConvertState where
  store : Store
  queue : List Job
deriving DecidableEq

/-- Outcome of the submission part of `handleConvert`: a 400 rejection, a
503 "queue full" rejection, or a job placed on the queue (after which the
handler waits on the result channel). -/
inductive SubmitResp where
  | badRequest (msg : String)
  | queueFull (msg : String)
  | enqueued (job : Job)
deriving DecidableEq

/-- The submission part of `handleConvert` (src/main.go lines 744-830):
build the job, validate that both formats are non-empty, register a Queued
entry, then attempt a non-blocking send on the work queue (`select` with a
`default` branch: it succeeds exactly when the buffered channel has room). -/
def handleConvertSubmit (id : String) (now : Nat) (req : ConvertReq)
    (st : ConvertState) : SubmitResp × ConvertState :=
  let job := buildJob id req
  if job.fromFmt = "" ∨ job.toFmt = "" then
    (.badRequest "Missing format specification", st)
  else
    let store1 := insertJob st.store id ⟨.queued, "", "", now⟩
    if st.queue.length < queueCapacity then
      (.enqueued job, ⟨store1, st.queue ++ [job]⟩)
    else
      (.queueFull "Queue full, try again later", ⟨store1, st.queue⟩)

/-- The HTTP outcome of `handleDownload`: 400, 404, 202 "not complete",
500, or the file bytes with their content type. -/
inductive DownloadResp where
  | badRequest (msg : String)
  | notFound (msg : String)
  | accepted (msg : String)
  | serverError (msg : String)
  | file (contentType data : String)
deriving DecidableEq

/-- The content-type inference of `handleDownload` (src/main.go lines
901-911), keyed on the output path's suffix. -/
def contentTypeFor (p : String) : String :=
  if p.endsWith ".html" then "text/html; charset=utf-8"
  else if p.endsWith ".pdf" then "application/pdf"
  else if p.endsWith ".json" then "application/json"
  else if p.endsWith ".txt" then "text/plain; charset=utf-8"
  else "application/octet-stream"

/-- `handleDownload` from src/main.go (lines 863-922); `fs` gives each
path's readable contents, `none` modelling an `os.ReadFile` error. -/
def handleDownload (jobID : String) (s : Store) (fs : String → Option String) :
    DownloadResp :=
  if jobID = "" then .badRequest "Missing job ID"
  else
    match lookupJob s jobID with
    | none => .notFound "Job not found"
    | some entry =>
      if entry.status ≠ JobStatus.done then .accepted "Job not complete"
      else if entry.outputPath = "" then .notFound "Output file not available"
      else
        match fs entry.outputPath with
        | none => .serverError "Failed to read file"
        | some data => .file (contentTypeFor entry.outputPath) data

/-- A successfully processed upload job, used to exercise the worker on a
concrete input. -/
def demoJob : Job := ⟨"j8", "/in.md", "markdown", "html", "", true⟩

/-- An environment in which pandoc succeeds. -/
def demoEnv : Env := ⟨none, true, [], true, "", "", "/tmp"⟩

/-- A store holding the Queued entry for `demoJob`. -/
def demoStore : Store := [("j8", ⟨.queued, "", "", 0⟩)]

/-- The full effect record of running `demoJob` in `demoEnv`. -/
def demoOut : ProcOut :=
  ⟨[("j8", ⟨.done, "/tmp/pandoc_output_j8.html", "", 0⟩)],
   [⟨"/tmp/pandoc_output_j8.html", none⟩], [], ["/in.md"],
   [.processing, .done], true⟩

/-- A queue at capacity, used to exercise the full-queue rejection. -/
def fullState : ConvertState := ⟨[], List.replicate queueCapacity demoJob⟩

/-- An inline-content (non-upload) job, exercising the temp-file
materialization paths of `processJob`. -/
def inlineJob : Job := ⟨"j1", "", "markdown", "html", "# Hi", false⟩

/-- An environment in which `os.CreateTemp` fails. -/
def envCreateFail : Env := ⟨none, true, [], true, "", "", "/tmp"⟩

/-- An environment in which the temp file is created at
`/tmp/pandoc_upload_1.md` but `WriteString` fails. -/
def envWriteFail : Env := ⟨some "/tmp/pandoc_upload_1.md", false, [], true, "", "", "/tmp"⟩

/-- The store holding the Queued entry for `inlineJob`. -/
def inlineStore : Store := [("j1", ⟨.queued, "", "", 0⟩)]

/-! ### Store lemmas -/

theorem lookupJob_insert (s : Store) (id : String) (e : JobEntry) :
    lookupJob (insertJob s id e) id = some e := by
  simp [insertJob, lookupJob]

theorem lookupJob_filter_ne (s : Store) (id : String) :
    lookupJob (s.filter (fun p => p.1 ≠ id)) id = none := by
  induction s with
  | nil => rfl
  | cons hd tl ih =>
    obtain ⟨k, v⟩ := hd
    by_cases hk : k = id <;> simp_all [List.filter_cons, lookupJob]

theorem lookupJob_filter_none (g : String × JobEntry → Bool) (s : Store)
    (id : String) (h : lookupJob s id = none) :
    lookupJob (s.filter g) id = none := by
  induction s with
  | nil => rfl
  | cons hd tl ih =>
    obtain ⟨k, v⟩ := hd
    rw [lookupJob] at h
    by_cases hk : k = id
    · simp [hk] at h
    · rw [if_neg hk] at h
      rw [List.filter_cons]
      cases hg : g (k, v) <;> simp [lookupJob, hk, ih h]

theorem lookupJob_updateMap (s : Store) (id : String) (f : JobEntry → JobEntry) :
    lookupJob (updateMap s id f) id = (lookupJob s id).map f := by
  induction s with
  | nil => rfl
  | cons hd tl ih =>
    obtain ⟨k, v⟩ := hd
    by_cases hk : k = id
    · subst hk
      simp only [updateMap, List.map_cons]
      simp [lookupJob]
    · simp only [updateMap, List.map_cons, if_neg hk]
      rw [lookupJob, if_neg hk, lookupJob, if_neg hk]
      exact ih

theorem updateEntry_eq_some {s : Store} {id : String} {e : JobEntry}
    (f : JobEntry → JobEntry) (h : lookupJob s id = some e) :
    updateEntry s id f = some (updateMap s id f) := by
  simp [updateEntry, h]

theorem lookup_mem {α β : Type} [BEq α] [LawfulBEq α] {l : List (α × β)}
    {a : α} {b : β} (h : List.lookup a l = some b) : (a, b) ∈ l := by
  induction l with
  | nil => simp [List.lookup] at h
  | cons hd tl ih =>
    obtain ⟨k, v⟩ := hd
    rw [List.lookup] at h
    cases hk : (a == k) with
    | true =>
      rw [hk] at h
      injection h with h
      subst h
      exact (eq_of_beq hk) ▸ List.mem_cons_self _ _
    | false =>
      rw [hk] at h
      exact List.mem_cons_of_mem _ (ih h)

theorem detectFormat_ne_empty (ext : String) : detectFormat ext ≠ "" := by
  unfold detectFormat
  cases hl : List.lookup ext extensionFormats with
  | none => decide
  | some f =>
    have hmem : (ext, f) ∈ extensionFormats := lookup_mem hl
    have hall : ∀ p ∈ extensionFormats, p.2 ≠ "" := by decide
    exact hall _ hmem

/-! ### `processJob` lemmas -/

theorem processJob_isSome_of_lookup {job : Job} {env : Env} {s0 : Store}
    {e : JobEntry} (h : lookupJob s0 job.id = some e) :
    (processJob job env s0).isSome := by
  have h1 : lookupJob
      (updateMap s0 job.id (fun e => { e with status := JobStatus.processing }))
      job.id = some { e with status := JobStatus.processing } := by
    rw [lookupJob_updateMap, h]; rfl
  unfold processJob
  rw [updateEntry_eq_some _ h]
  cases hm : materializeInput job env with
  | error rc => obtain ⟨r, c⟩ := rc; simp
  | ok m =>
    by_cases hc : (job.toFmt = "pdf" && (selectEngine env.available).isNone) = true
    · simp only [hc, if_true, updateEntry_eq_some _ h1, Option.isSome_some]
    · simp only [hc, if_false, Bool.false_eq_true]
      by_cases hpk : env.pandocOk = true
      · simp only [hpk, if_true, updateEntry_eq_some _ h1, Option.isSome_some]
      · simp only [hpk, if_false, Bool.false_eq_true,
          updateEntry_eq_some _ h1, Option.isSome_some]

theorem processJob_none_iff (job : Job) (env : Env) (s0 : Store) :
    processJob job env s0 = none ↔ lookupJob s0 job.id = none := by
  constructor
  · intro h
    cases he : lookupJob s0 job.id with
    | none => rfl
    | some e =>
      have hs := @processJob_isSome_of_lookup job env s0 e he
      rw [h] at hs
      simp at hs
  · intro h
    simp [processJob, updateEntry, h]

/-! ### Claim theorems -/

/-- C6: `cleanupOldJobs` removes exactly the store entries whose age exceeds
the 30-minute retention window — an entry survives the sweep iff it was in
the store and its age is within the window (so in-window entries are kept
unchanged) — and the files it deletes are exactly the non-empty output paths
of the expired entries. -/
theorem cleanup_sweeps_exactly_expired (now : Nat) (jobs : Store)
    (id : String) (e : JobEntry) :
    ((id, e) ∈ (cleanupOldJobs now jobs).1 ↔
      (id, e) ∈ jobs ∧ now - e.createdAt ≤ retention) ∧
    (∀ p, p ∈ (cleanupOldJobs now jobs).2 ↔
      ∃ id2 e2, (id2, e2) ∈ jobs ∧ retention < now - e2.createdAt ∧
        e2.outputPath = p ∧ p ≠ "") := by
  constructor
  · simp [cleanupOldJobs, List.mem_filter, expired, Nat.not_lt]
  · intro p
    simp only [cleanupOldJobs, List.mem_map, List.mem_filter, expired,
      Bool.and_eq_true, decide_eq_true_eq, Prod.exists]
    constructor
    · rintro ⟨a, b, ⟨hmem, hexp, hne⟩, hp⟩
      exact ⟨a, b, hmem, hexp, hp, hp ▸ hne⟩
    · rintro ⟨a, b, hmem, hexp, hp, hne⟩
      exact ⟨a, b, ⟨hmem, hexp, hp ▸ hne⟩, hp⟩

/-- C6 witness: on a concrete two-entry store swept at second 1801, the
expired Done entry is gone and its output file deleted, while the young
entry survives. -/
theorem cleanup_sweeps_exactly_expired_witness :
    (("b", (⟨.queued, "", "", 200⟩ : JobEntry)) ∈
        (cleanupOldJobs 1801 [("a", ⟨.done, "/tmp/out.html", "", 0⟩),
          ("b", ⟨.queued, "", "", 200⟩)]).1) ∧
    ("/tmp/out.html" ∈
        (cleanupOldJobs 1801 [("a", ⟨.done, "/tmp/out.html", "", 0⟩),
          ("b", ⟨.queued, "", "", 200⟩)]).2) := by
  constructor
  · exact (cleanup_sweeps_exactly_expired 1801 _ "b" ⟨.queued, "", "", 200⟩).1.mpr
      ⟨by simp, by decide⟩
  · exact ((cleanup_sweeps_exactly_expired 1801 _ "a"
        ⟨.done, "/tmp/out.html", "", 0⟩).2 "/tmp/out.html").mpr
      ⟨"a", ⟨.done, "/tmp/out.html", "", 0⟩, by simp, by decide, rfl, by decide⟩

/-- C7: `handleDownload` answers not-found when the identifier is absent,
"not complete" (with no file bytes) when the entry exists but is not Done,
and serves the converted bytes, with the content type inferred from the
output path's extension, only when the status is Done and the output path is
non-empty. -/
theorem download_served_only_when_done (id : String) (s : Store)
    (fs : String → Option String) :
    (id ≠ "" → lookupJob s id = none →
      handleDownload id s fs = .notFound "Job not found") ∧
    (∀ e, id ≠ "" → lookupJob s id = some e → e.status ≠ .done →
      handleDownload id s fs = .accepted "Job not complete") ∧
    (∀ ct data, handleDownload id s fs = .file ct data →
      ∃ e, lookupJob s id = some e ∧ e.status = .done ∧ e.outputPath ≠ "" ∧
        fs e.outputPath = some data ∧ ct = contentTypeFor e.outputPath) := by
  refine ⟨?_, ?_, ?_⟩
  · intro hne hnone
    simp [handleDownload, hne, hnone]
  · intro e hne hsome hnd
    simp [handleDownload, hne, hsome, hnd]
  · intro ct data h
    by_cases hid : id = ""
    · simp [handleDownload, hid] at h
    · cases hl : lookupJob s id with
      | none => simp [handleDownload, hid, hl] at h
      | some e =>
        by_cases hst : e.status = JobStatus.done
        · by_cases hop : e.outputPath = ""
          · simp [handleDownload, hid, hl, hst, hop] at h
          · cases hfs : fs e.outputPath with
            | none => simp [handleDownload, hid, hl, hst, hop, hfs] at h
            | some data2 =>
              simp only [handleDownload, if_neg hid, hl, hst, ne_eq,
                not_true_eq_false, if_false, if_neg hop, hfs] at h
              injection h with h1 h2
              exact ⟨e, rfl, hst, hop, h2 ▸ hfs, h1.symm⟩
        · simp [handleDownload, hid, hl, hst] at h

/-- C7 witness: downloading a still-processing job answers the 202
"not complete" condition. -/
theorem download_served_only_when_done_witness :
    handleDownload "a" [("a", ⟨.processing, "", "", 0⟩)] (fun _ => none) =
      .accepted "Job not complete" :=
  (download_served_only_when_done "a" [("a", ⟨.processing, "", "", 0⟩)]
      (fun _ => none)).2.1
    ⟨.processing, "", "", 0⟩ (by decide) rfl (by decide)

/-- C8: each job's result channel is created with capacity exactly 1
(`resultChanCapacity`, from `make(chan Result, 1)`), and every completed
`processJob` run performs exactly one send on it, so the send fits the
buffer and never blocks even with no listener. -/
theorem one_result_send_per_job :
    resultChanCapacity = 1 ∧
    ∀ (job : Job) (env : Env) (s0 : Store) (out : ProcOut),
      processJob job env s0 = some out →
      out.sends.length = 1 ∧ out.sends.length ≤ resultChanCapacity := by
  refine ⟨rfl, ?_⟩
  intro job env s0 out h
  unfold processJob at h
  repeat' split at h
  all_goals
    first
    | exact Option.noConfusion h
    | (injection h with h; subst h; exact ⟨rfl, Nat.le_refl 1⟩)

/-- C8 witness: the concrete success run performs exactly one send, within
the channel capacity. -/
theorem one_result_send_per_job_witness :
    demoOut.sends.length = 1 ∧ demoOut.sends.length ≤ resultChanCapacity :=
  one_result_send_per_job.2 demoJob demoEnv demoStore demoOut rfl

/-- C9 (as stated) fails: the sweeper deletes entries older than the
retention window regardless of status, so the Queued entry of a job that sat
in the queue for 31 minutes is gone when a worker dequeues it, and
`processJob`'s unguarded `jobStore.jobs[job.ID]` access hits an absent entry
(`none` here modelling the nil-pointer panic). -/
theorem worker_store_access_counterexample :
    lookupJob (cleanupOldJobs (31 * 60)
        (insertJob [] "j9" ⟨.queued, "", "", 0⟩)).1 "j9" = none ∧
    processJob ⟨"j9", "/tmp/up.md", "markdown", "html", "", true⟩
        ⟨none, true, [], true, "", "", "/tmp"⟩
        (cleanupOldJobs (31 * 60) (insertJob [] "j9" ⟨.queued, "", "", 0⟩)).1 =
      none := by
  exact ⟨rfl, rfl⟩

/-- C9 amended: `processJob`'s store accesses dereference an absent entry
exactly when the job's entry is no longer in the store at dequeue time;
whenever the registered entry is still present (in particular, whenever no
sweep has removed it while the job waited), every access of the run finds
the entry. -/
theorem worker_store_access_safe (job : Job) (env : Env) (s0 : Store) :
    processJob job env s0 = none ↔ lookupJob s0 job.id = none :=
  processJob_none_iff job env s0

/-- C9 amended witness: on the empty store the run faults, and with the
entry present it completes. -/
theorem worker_store_access_safe_witness :
    processJob demoJob demoEnv [] = none ∧
      processJob demoJob demoEnv demoStore ≠ none := by
  constructor
  · exact (worker_store_access_safe demoJob demoEnv []).mpr rfl
  · intro h
    have := (worker_store_access_safe demoJob demoEnv demoStore).mp h
    exact Option.noConfusion this

/-- C5: for a pdf-target job the worker probes `xelatex`, `pdflatex`,
`luatex` in that fixed order and picks the first one installed; when none
is installed and the input was materialized, the run marks the entry Failed
with the diagnostic naming the missing LaTeX-engine requirement, delivers
exactly that message on the result channel, and never executes pandoc. -/
theorem pdf_engine_selection (job : Job) (env : Env) (s0 : Store)
    (e0 : JobEntry) (m : MatOut)
    (hpdf : job.toFmt = "pdf")
    (hnone : selectEngine env.available = none)
    (hlk : lookupJob s0 job.id = some e0)
    (hmat : materializeInput job env = .ok m) :
    (∀ avail : List String,
      selectEngine avail =
        if avail.contains "xelatex" then some "xelatex"
        else if avail.contains "pdflatex" then some "pdflatex"
        else if avail.contains "luatex" then some "luatex"
        else none) ∧
    (processJob job env s0).map
        (fun o => (o.sends, o.ranPandoc, (lookupJob o.store job.id).map
          (fun e => (e.status, e.error)))) =
      some ([⟨"", some noPdfEngineError⟩], false,
        some (.failed, noPdfEngineError)) := by
  constructor
  · intro avail
    simp only [selectEngine, pdfEngines, List.find?]
    cases hx : avail.contains "xelatex" <;>
      cases hp : avail.contains "pdflatex" <;>
        cases hl : avail.contains "luatex" <;> simp [hx, hp, hl]
  · have h1 : lookupJob
        (updateMap s0 job.id (fun e => { e with status := JobStatus.processing }))
        job.id = some { e0 with status := JobStatus.processing } := by
      rw [lookupJob_updateMap, hlk]; rfl
    have h2 : lookupJob
        (updateMap (updateMap s0 job.id
            (fun e => { e with status := JobStatus.processing })) job.id
          (fun e => { e with status := JobStatus.failed, error := noPdfEngineError }))
        job.id =
        some { e0 with status := JobStatus.failed, error := noPdfEngineError } := by
      rw [lookupJob_updateMap, h1]; rfl
    unfold processJob
    rw [updateEntry_eq_some _ hlk, hmat]
    simp [hpdf, hnone, updateEntry, h1, h2]

/-- C5 witness: a concrete pdf job in an environment with no LaTeX engine
fails fast with the diagnostic, without running pandoc. -/
theorem pdf_engine_selection_witness :
    (processJob ⟨"j5", "/in.md", "markdown", "pdf", "", true⟩
        ⟨none, true, [], true, "", "", "/tmp"⟩
        [("j5", ⟨.queued, "", "", 7⟩)]).map
        (fun o => (o.sends, o.ranPandoc,
          (lookupJob o.store "j5").map (fun e => (e.status, e.error)))) =
      some ([⟨"", some noPdfEngineError⟩], false,
        some (.failed, noPdfEngineError)) :=
  (pdf_engine_selection ⟨"j5", "/in.md", "markdown", "pdf", "", true⟩
      ⟨none, true, [], true, "", "", "/tmp"⟩
      [("j5", ⟨.queued, "", "", 7⟩)] ⟨.queued, "", "", 7⟩
      ⟨"/in.md", [], ["/in.md"]⟩ rfl rfl rfl rfl).2

/-- C2: when the work queue is at its capacity of 256, a validated
submission is rejected within the call with the 503 "queue full" condition,
nothing is placed on the queue, and the Queued entry registered just before
the enqueue attempt is still in the store — from where a sweep run any time
after the retention window removes it. -/
theorem enqueue_rejects_when_full (id : String) (now : Nat)
    (req : ConvertReq) (st : ConvertState)
    (hf : (buildJob id req).fromFmt ≠ "")
    (ht : (buildJob id req).toFmt ≠ "")
    (hfull : st.queue.length = queueCapacity) :
    queueCapacity = 256 ∧
    (handleConvertSubmit id now req st).1 =
      .queueFull "Queue full, try again later" ∧
    (handleConvertSubmit id now req st).2.queue = st.queue ∧
    lookupJob (handleConvertSubmit id now req st).2.store id =
      some ⟨.queued, "", "", now⟩ ∧
    lookupJob (cleanupOldJobs (now + retention + 1)
        (handleConvertSubmit id now req st).2.store).1 id = none := by
  have hcond : ¬((buildJob id req).fromFmt = "" ∨ (buildJob id req).toFmt = "") := by
    tauto
  have hroom : ¬ st.queue.length < queueCapacity := by omega
  simp only [handleConvertSubmit, if_neg hcond, if_neg hroom]
  refine ⟨rfl, trivial, trivial, lookupJob_insert _ _ _, ?_⟩
  have hexp : expired (now + retention + 1)
      (⟨.queued, "", "", now⟩ : JobEntry) = true := by
    simp only [expired, decide_eq_true_eq]
    omega
  simp only [cleanupOldJobs, insertJob, List.filter_cons, hexp,
    Bool.not_true, Bool.false_eq_true, if_false]
  exact lookupJob_filter_none _ _ _ (lookupJob_filter_ne st.store id)

/-- C2 witness: a concrete submission against the full queue is rejected
with "queue full", the queue is unchanged, the Queued entry stays, and the
sweep removes it after the retention window. -/
theorem enqueue_rejects_when_full_witness :
    queueCapacity = 256 ∧
    (handleConvertSubmit "jc" 5 (.jsonBody "markdown" "html" "x") fullState).1 =
      .queueFull "Queue full, try again later" ∧
    (handleConvertSubmit "jc" 5
        (.jsonBody "markdown" "html" "x") fullState).2.queue = fullState.queue ∧
    lookupJob (handleConvertSubmit "jc" 5
        (.jsonBody "markdown" "html" "x") fullState).2.store "jc" =
      some ⟨.queued, "", "", 5⟩ ∧
    lookupJob (cleanupOldJobs (5 + retention + 1)
        (handleConvertSubmit "jc" 5
          (.jsonBody "markdown" "html" "x") fullState).2.store).1 "jc" = none :=
  enqueue_rejects_when_full "jc" 5 (.jsonBody "markdown" "html" "x") fullState
    (by decide) (by decide) (by simp [fullState])

/-- C4 as stated fails: `handleConvert` validates only non-emptiness of the
format identifiers, never membership in the supported-format catalog — a
request with the non-empty invalid source format "notaformat" is accepted:
it is enqueued and a Queued entry is created. -/
theorem format_catalog_counterexample :
    "notaformat" ∉ supportedFormats ∧ "notaformat" ≠ "" ∧
    (handleConvertSubmit "j4" 5 (.jsonBody "notaformat" "html" "hello")
        ⟨[], []⟩).1 =
      .enqueued ⟨"j4", "", "notaformat", "html", "hello", false⟩ ∧
    lookupJob (handleConvertSubmit "j4" 5
        (.jsonBody "notaformat" "html" "hello") ⟨[], []⟩).2.store "j4" =
      some ⟨.queued, "", "", 5⟩ := by
  exact ⟨by decide, by decide, rfl, rfl⟩

/-- C4 amended: a conversion request is rejected with the 4xx "Missing
format specification" error exactly when the (post-auto-detection) source or
target format is empty, and on rejection no entry is created and nothing is
enqueued; any non-empty pair — supported or not, the catalog is never
consulted — proceeds: an entry is registered and, given queue room, the job
is enqueued. -/
theorem format_validation_nonempty_only (id : String) (now : Nat)
    (req : ConvertReq) (st : ConvertState) :
    (((buildJob id req).fromFmt = "" ∨ (buildJob id req).toFmt = "") →
      handleConvertSubmit id now req st =
        (.badRequest "Missing format specification", st)) ∧
    ((buildJob id req).fromFmt ≠ "" → (buildJob id req).toFmt ≠ "" →
      lookupJob (handleConvertSubmit id now req st).2.store id =
        some ⟨.queued, "", "", now⟩ ∧
      (st.queue.length < queueCapacity →
        (handleConvertSubmit id now req st).1 = .enqueued (buildJob id req))) := by
  constructor
  · intro h
    simp only [handleConvertSubmit, if_pos h]
  · intro hf ht
    have hcond : ¬((buildJob id req).fromFmt = "" ∨ (buildJob id req).toFmt = "") := by
      tauto
    constructor
    · simp only [handleConvertSubmit, if_neg hcond]
      by_cases hq : st.queue.length < queueCapacity
      · simp only [if_pos hq]
        exact lookupJob_insert _ _ _
      · simp only [if_neg hq]
        exact lookupJob_insert _ _ _
    · intro hq
      simp only [handleConvertSubmit, if_neg hcond, if_pos hq]

/-- C4 amended witness: an unsupported non-empty format pair is accepted on
an empty queue. -/
theorem format_validation_nonempty_only_witness :
    lookupJob (handleConvertSubmit "j4" 5
        (.jsonBody "notaformat" "alsofake" "hello") ⟨[], []⟩).2.store "j4" =
      some ⟨.queued, "", "", 5⟩ ∧
    (handleConvertSubmit "j4" 5
        (.jsonBody "notaformat" "alsofake" "hello") ⟨[], []⟩).1 =
      .enqueued ⟨"j4", "", "notaformat", "alsofake", "hello", false⟩ := by
  have h := (format_validation_nonempty_only "j4" 5
      (.jsonBody "notaformat" "alsofake" "hello") ⟨[], []⟩).2
    (by decide) (by decide)
  exact ⟨h.1, h.2 (by decide)⟩

/-- C10: a multipart upload that omits the source format is never rejected
for it: the format is auto-detected from the uploaded filename's extension
through `extensionFormats`, defaulting to "markdown" on an unrecognized
extension, so the detected format is always non-empty and — the target being
non-empty — the submission passes validation and reaches the enqueue step
(succeeding whenever the queue has room). -/
theorem upload_from_format_autodetect (filename savedPath toFmt id : String)
    (now : Nat) (st : ConvertState) (ht : toFmt ≠ "") :
    (buildJob id (.upload filename savedPath "" toFmt)).fromFmt =
      detectFormat (filepathExt filename) ∧
    (buildJob id (.upload filename savedPath "" toFmt)).fromFmt ≠ "" ∧
    ((handleConvertSubmit id now (.upload filename savedPath "" toFmt) st).1 =
        .enqueued (buildJob id (.upload filename savedPath "" toFmt)) ∨
      (handleConvertSubmit id now (.upload filename savedPath "" toFmt) st).1 =
        .queueFull "Queue full, try again later") := by
  have hb : (buildJob id (.upload filename savedPath "" toFmt)).fromFmt =
      detectFormat (filepathExt filename) := by
    simp [buildJob]
  refine ⟨hb, ?_, ?_⟩
  · rw [hb]
    exact detectFormat_ne_empty _
  · have hcond : ¬((buildJob id (.upload filename savedPath "" toFmt)).fromFmt = "" ∨
        (buildJob id (.upload filename savedPath "" toFmt)).toFmt = "") := by
      push_neg
      exact ⟨hb ▸ detectFormat_ne_empty _, by simpa [buildJob] using ht⟩
    simp only [handleConvertSubmit, if_neg hcond]
    by_cases hq : st.queue.length < queueCapacity
    · exact Or.inl (by simp only [if_pos hq])
    · exact Or.inr (by simp only [if_neg hq])

/-- C10 witness: an upload named `notes.xyz` (unrecognized extension) with
no `from` value is accepted with the default "markdown" source format. -/
theorem upload_from_format_autodetect_witness :
    (buildJob "jw" (.upload "notes.xyz" "/tmp/saved" "" "html")).fromFmt =
      detectFormat (filepathExt "notes.xyz") ∧
    (buildJob "jw" (.upload "notes.xyz" "/tmp/saved" "" "html")).fromFmt ≠ "" ∧
    ((handleConvertSubmit "jw" 3 (.upload "notes.xyz" "/tmp/saved" "" "html")
        ⟨[], []⟩).1 =
        .enqueued (buildJob "jw" (.upload "notes.xyz" "/tmp/saved" "" "html")) ∨
      (handleConvertSubmit "jw" 3 (.upload "notes.xyz" "/tmp/saved" "" "html")
        ⟨[], []⟩).1 = .queueFull "Queue full, try again later") :=
  upload_from_format_autodetect "notes.xyz" "/tmp/saved" "html" "jw" 3
    ⟨[], []⟩ (by decide)

/-- C1 (as stated) fails on the code: on the temp-file materialization
failure paths of `processJob` (create failure shown here, and write failure
likewise) the worker sends the error on the result channel and returns
without the second store mutation, leaving the entry stuck at Processing —
neither Done nor Failed — with only one status write performed. -/
theorem status_stuck_processing_on_temp_failure :
    (processJob inlineJob envCreateFail inlineStore).map
        (fun o => ((lookupJob o.store "j1").map JobEntry.status,
          o.statusWrites, o.sends)) =
      some (some .processing, [.processing],
        [⟨"", some "failed to create temp file"⟩]) ∧
    (processJob inlineJob envWriteFail inlineStore).map
        (fun o => ((lookupJob o.store "j1").map JobEntry.status,
          o.statusWrites, o.sends)) =
      some (some .processing, [.processing],
        [⟨"", some "failed to write content"⟩]) := by
  exact ⟨rfl, rfl⟩

/-- C3 (as stated) fails on the code: `defer os.Remove(inputPath)` is
registered only after `WriteString` succeeds, so when the write fails the
temp input file just created is never removed — the run ends with a created
temp file and zero removals (while the create-failure path, with no file
created, and the success path, which removes the file, behave as claimed). -/
theorem temp_file_leak_on_write_failure :
    (processJob inlineJob envWriteFail inlineStore).map
        (fun o => (o.created, o.removed)) =
      some (["/tmp/pandoc_upload_1.md"], []) ∧
    (processJob inlineJob envCreateFail inlineStore).map
        (fun o => (o.created, o.removed)) = some ([], []) ∧
    (processJob inlineJob ⟨some "/tmp/pandoc_upload_1.md", true, [], true,
          "", "", "/tmp"⟩ inlineStore).map
        (fun o => (o.created, o.removed)) =
      some (["/tmp/pandoc_upload_1.md"], ["/tmp/pandoc_upload_1.md"]) := by
  exact ⟨rfl, rfl, rfl⟩

end Convertly
